import Mathlib

/-!
Verification development for the perfetto traced_relay `RelayService`
(`src/traced_relay/relay_service.cc`): the connection-pairing engine, the
forged `SetPeerIdentity` identity frame, and the machine-identifier hint
derivation `GetMachineIdHint`.

The embedding is shallow: each C++ function of the source file becomes a
Lean function over explicit state.  Collaborators that live outside the
source file (the `base` string/hash utilities, the frame serializer, the
`SocketWithBuffer` type) are modelled from the specification and marked as
such in their doc comments.
-/

namespace RelayVerification

/-! ## Machine identifier hinting -/

/-- Modelled from the spec: outcome of `base::StripSuffix` (perfetto base
string utilities, outside the given sources) on character lists — if `suff`
is a suffix of `s`, drop that single trailing occurrence, else return `s`
unchanged. -/
def stripSuffixData (s suff : List Char) : List Char :=
  if suff.isSuffixOf s then s.take (s.length - suff.length) else s

/-- String wrapper for `stripSuffixData`. -/
def stripSuffix (s suff : String) : String :=
  ⟨stripSuffixData s.data suff.data⟩

/-- The sixteen lowercase hexadecimal digit characters. -/
def hexDigits : List Char := "0123456789abcdef".data

/-- Lowercase hexadecimal digit character for a value below 16. -/
def hexChar (d : Nat) : Char :=
  if d < 10 then Char.ofNat (48 + d) else Char.ofNat (87 + d)

/-- Fuelled most-significant-digit-first hexadecimal rendering. -/
def toHexCore : Nat → Nat → List Char → List Char
  | 0, _, acc => acc
  | fuel + 1, n, acc =>
    if n = 0 then acc else toHexCore fuel (n / 16) (hexChar (n % 16) :: acc)

/-- Modelled from the spec: `base::Uint64ToHexStringNoPrefix` (outside the
given sources) — the 64-bit digest rendered as a lowercase hexadecimal
string with no prefix. -/
def uint64ToHexString (n : Nat) : String :=
  if n % 18446744073709551616 = 0 then ⟨['0']⟩
  else ⟨toHexCore 64 (n % 18446744073709551616) []⟩

/-- Modelled from the spec: `base::Hasher` (outside the given sources), a
non-cryptographic 64-bit FNV-1a digest of a byte sequence; sequential
`Update` calls are the fold over the concatenated bytes. -/
def hasherDigest (bytes : List Nat) : Nat :=
  bytes.foldl
    (fun h b => ((h ^^^ (b % 256)) * 1099511628211) % 18446744073709551616)
    14695981039346656037

/-- Environment visible to `GetMachineIdHint`: the outcome of
`base::ReadFile` on the kernel boot-id path (`none` when the file is
unreadable), the birth-timestamp bytes of `/dev` obtained by the
platform-appropriate status call (`none` when the call fails), and the
`uname` kernel-identification bytes (`none` when the call fails). -/
structure MachineIdEnv where
  bootIdFile : Option String
  devBtime : Option (List Nat)
  kernelInfo : Option (List Nat)
deriving DecidableEq

/-- The lambda `get_pseudo_boot_id` of `RelayService::GetMachineIdHint`:
returns the empty string if the status call fails, otherwise feeds the
birth timestamp to the hasher, returns the empty string if `uname` fails,
otherwise feeds the kernel record and renders the digest in hex. -/
def getPseudoBootId (env : MachineIdEnv) : String :=
  match env.devBtime with
  | none => ""
  | some bs =>
    match env.kernelInfo with
    | none => ""
    | some ks => uint64ToHexString (hasherDigest (bs ++ ks))

/-- Result of `GetMachineIdHint` instrumented with which sources were
consulted: whether `base::ReadFile` was invoked on the boot-id path, and
whether the pseudo-boot-id fallback block was entered. -/
structure MachineIdResult where
  result : String
  bootIdFileRead : Bool
  fallbackAttempted : Bool
deriving DecidableEq

/-- The tail of `RelayService::GetMachineIdHint` reached when the boot-id
attempt yielded nothing: on supported platforms (Android/Linux/Apple, the
build-flag guard is `supportsFallback`) run `get_pseudo_boot_id` and return
its digest when non-empty; otherwise return the empty string.  `readFlag`
records whether `base::ReadFile` had been invoked on the way here. -/
def fallbackStep (supportsFallback : Bool) (env : MachineIdEnv)
    (readFlag : Bool) : MachineIdResult :=
  if supportsFallback then
    let pseudoBootId := getPseudoBootId env
    { result := if pseudoBootId = "" then "" else pseudoBootId
      bootIdFileRead := readFlag
      fallbackAttempted := true }
  else
    { result := ""
      bootIdFileRead := readFlag
      fallbackAttempted := false }

/-- `RelayService::GetMachineIdHint`, instrumented.  The `&&` in the source
short-circuits: `ReadFile` runs only when the testing flag is false.  On a
readable boot-id file the function returns its content with one trailing
newline stripped and never reaches the fallback; otherwise it continues
with `fallbackStep`. -/
def getMachineIdHintTraced (supportsFallback : Bool) (env : MachineIdEnv)
    (usePseudoBootIdForTesting : Bool) : MachineIdResult :=
  if usePseudoBootIdForTesting then
    fallbackStep supportsFallback env false
  else
    match env.bootIdFile with
    | some content =>
      { result := stripSuffix content "\n"
        bootIdFileRead := true
        fallbackAttempted := false }
    | none => fallbackStep supportsFallback env true

/-- The string `RelayService::GetMachineIdHint` returns. -/
def getMachineIdHint (supportsFallback : Bool) (env : MachineIdEnv)
    (usePseudoBootIdForTesting : Bool) : String :=
  (getMachineIdHintTraced supportsFallback env usePseudoBootIdForTesting).result

/-! ## Connection pairing engine -/

/-- The `SetPeerIdentity` sub-message of an IPC frame: an optional process
id (set only on Linux/Android builds), a signed 32-bit user id, and the
machine identifier hint. -/
structure SetPeerIdentity where
  pid : Option Int
  uid : Int
  machineIdHint : String
deriving DecidableEq

/-- The logical `IPCFrame` this service constructs: a request id and the
`set_peer_identity` payload. -/
structure IPCFrame where
  requestId : Nat
  setPeerIdentity : SetPeerIdentity
deriving DecidableEq

/-- Value of `static_cast<int32_t>` applied to the 32-bit unsigned value
`peer_uid_posix()` returns. -/
def int32OfUint32 (u : Nat) : Int :=
  let m := u % 4294967296
  if m < 2147483648 then (m : Int) else (m : Int) - 4294967296

/-- Modelled from the spec: a staged socket of `SocketWithBuffer`
(socket_relay_handler.h, outside the given sources) — a raw transferable
handle (`none` until one is installed) plus the bytes committed into its
fixed-capacity output buffer. -/
structure SocketWithBuffer where
  sock : Option Nat
  data : List Nat
deriving DecidableEq

/-- Remaining capacity of the staged buffer, `available_bytes()`. -/
def SocketWithBuffer.availableBytes (capacity : Nat) (s : SocketWithBuffer) : Nat :=
  capacity - s.data.length

/-- A staged pair: inbound ("server") side first, outbound ("client") side
second. -/
structure SocketPair where
  server : SocketWithBuffer
  client : SocketWithBuffer
deriving DecidableEq

/-- One in-flight pairing attempt: the staged pair plus the identity of the
still-connecting outbound `UnixSocket`, used only as a lookup key. -/
structure PendingConnection where
  socketPair : SocketPair
  connectingClientConn : Nat
deriving DecidableEq

/-- Observable state of the `RelayService`: the cached machine identifier
hint, the in-flight pairing attempts, the pairs handed to
`socket_relay_handler_` via `AddSocketPair` (in order), and the pairs whose
sockets were closed by destroying a removed pending entry. -/
structure RelayState where
  machineIdHint : String
  pendingConnections : List PendingConnection
  handedOffPairs : List SocketPair
  closedPairs : List SocketPair
deriving DecidableEq

/-- Build-time parameters of the engine: the fixed staging-buffer capacity
and the Linux/Android flag guarding `set_pid`, together with the external
frame serializer.  The serializer is modelled from the spec as an abstract
map from a logical frame to its wire bytes
(`ipc::BufferedFrameDeserializer::Serialize`, outside the given sources). -/
structure RelayConfig where
  capacity : Nat
  serialize : IPCFrame → List Nat
  platformHasPeerPid : Bool

/-- The forged `SetPeerIdentity` frame `RelayService::OnNewIncomingConnection`
builds: request id 0; pid from `peer_pid_linux()` only on Linux/Android;
uid from `peer_uid_posix()` cast to `int32_t`; the cached hint. -/
def mkSetPeerIdentityFrame (platformHasPeerPid : Bool) (peerPid : Int)
    (peerUid : Nat) (hint : String) : IPCFrame :=
  { requestId := 0
    setPeerIdentity :=
      { pid := if platformHasPeerPid then some peerPid else none
        uid := int32OfUint32 peerUid
        machineIdHint := hint } }

/-- `RelayService::OnNewIncomingConnection`: forge the identity frame,
serialize it, `PERFETTO_CHECK` that it fits the fresh server-side buffer
(`none` models the fatal check failing), copy it in, install the accepted
connection's raw handle on the server side, and record a pending entry
keyed by the new outbound connection.  `serverConnSock` is the raw handle
`server_conn->ReleaseSocket()` yields; `clientConnId` identifies the
outbound `UnixSocket` returned by `Connect`. -/
def onNewIncomingConnection (cfg : RelayConfig) (st : RelayState)
    (serverConnSock : Nat) (peerPid : Int) (peerUid : Nat)
    (clientConnId : Nat) : Option RelayState :=
  let frame := mkSetPeerIdentityFrame cfg.platformHasPeerPid peerPid peerUid
    st.machineIdHint
  let req := cfg.serialize frame
  let freshServer : SocketWithBuffer := { sock := none, data := [] }
  if freshServer.availableBytes cfg.capacity ≥ req.length then
    let server : SocketWithBuffer := { sock := some serverConnSock, data := req }
    let client : SocketWithBuffer := { sock := none, data := [] }
    some { st with
      pendingConnections := st.pendingConnections ++
        [{ socketPair := ⟨server, client⟩, connectingClientConn := clientConnId }] }
  else
    none

/-- The `std::find_if` plus `erase` of `RelayService::OnConnect`: locate the
first pending entry whose connecting outbound connection is `self` and
return it together with the collection with that one entry removed. -/
def findAndRemove (self : Nat) : List PendingConnection →
    Option (PendingConnection × List PendingConnection)
  | [] => none
  | p :: ps =>
    if p.connectingClientConn = self then some (p, ps)
    else
      match findAndRemove self ps with
      | none => none
      | some (q, qs) => some (q, p :: qs)

/-- `RelayService::OnConnect`: a missing pending entry is a fatal
`PERFETTO_CHECK` (`none`); the scope-exit remover erases the entry on every
path; on failure the removed entry's destruction closes both staged sockets;
on success the outbound raw handle is installed on the client side and the
pair is handed to `socket_relay_handler_.AddSocketPair`. -/
def onConnect (st : RelayState) (self : Nat) (connected : Bool) :
    Option RelayState :=
  match findAndRemove self st.pendingConnections with
  | none => none
  | some (entry, rest) =>
    if connected then
      let pair : SocketPair :=
        { entry.socketPair with
          client := { entry.socketPair.client with sock := some self } }
      some { st with
        pendingConnections := rest
        handedOffPairs := st.handedOffPairs ++ [pair] }
    else
      some { st with
        pendingConnections := rest
        closedPairs := st.closedPairs ++ [entry.socketPair] }

/-- Modelled from the spec: `PERFETTO_DFATAL` (perfetto base logging,
outside the given sources) on a disconnect notification is treated as a
fatal invariant violation with no recovery path. -/
def onDisconnect (_ : RelayState) (_ : Nat) : Option RelayState := none

/-- Modelled from the spec: `PERFETTO_DFATAL` on a data-available
notification is treated as a fatal invariant violation with no recovery
path. -/
def onDataAvailable (_ : RelayState) (_ : Nat) : Option RelayState := none

/-! ## Helper lemmas -/

theorem toHexCore_length (fuel : Nat) :
    ∀ (n : Nat) (acc : List Char), acc.length ≤ (toHexCore fuel n acc).length := by
  induction fuel with
  | zero => intro n acc; simp [toHexCore]
  | succ fuel ih =>
    intro n acc
    rw [toHexCore]
    by_cases h : n = 0
    · simp [h]
    · rw [if_neg h]
      calc acc.length ≤ (hexChar (n % 16) :: acc).length := by simp
        _ ≤ _ := ih _ _

theorem toHexCore_ne_nil (fuel n : Nat) (hn : n ≠ 0) :
    toHexCore (fuel + 1) n [] ≠ [] := by
  rw [toHexCore, if_neg hn]
  intro hcontra
  have hlen := toHexCore_length fuel (n / 16) [hexChar (n % 16)]
  rw [hcontra] at hlen
  simp at hlen

theorem hexChar_mem_hexDigits (d : Nat) (hd : d < 16) : hexChar d ∈ hexDigits := by
  interval_cases d <;> decide

theorem toHexCore_mem_hexDigits (fuel : Nat) :
    ∀ (n : Nat) (acc : List Char), (∀ c ∈ acc, c ∈ hexDigits) →
      ∀ c ∈ toHexCore fuel n acc, c ∈ hexDigits := by
  induction fuel with
  | zero => intro n acc hacc; simpa [toHexCore] using hacc
  | succ fuel ih =>
    intro n acc hacc
    rw [toHexCore]
    by_cases h : n = 0
    · simpa [h] using hacc
    · rw [if_neg h]
      refine ih _ _ ?_
      intro c hc
      rcases List.mem_cons.mp hc with rfl | hmem
      · exact hexChar_mem_hexDigits _ (Nat.mod_lt _ (by norm_num))
      · exact hacc _ hmem

theorem uint64ToHexString_mem_hexDigits (n : Nat) :
    ∀ c ∈ (uint64ToHexString n).data, c ∈ hexDigits := by
  rw [uint64ToHexString]
  split
  · intro c hc
    rcases List.mem_singleton.mp hc with rfl
    decide
  · exact toHexCore_mem_hexDigits 64 _ [] (by simp)

theorem newline_notMem_uint64ToHexString (n : Nat) :
    '\n' ∉ (uint64ToHexString n).data := by
  intro hmem
  have := uint64ToHexString_mem_hexDigits n '\n' hmem
  simp [hexDigits] at this

theorem uint64ToHexString_ne_empty (n : Nat) : uint64ToHexString n ≠ "" := by
  rw [uint64ToHexString]
  split
  · decide
  · rename_i h
    intro hcontra
    have hdata := congrArg String.data hcontra
    simp only [String.data] at hdata
    exact toHexCore_ne_nil 63 _ h hdata

theorem stripSuffixData_subset (s suff : List Char) : stripSuffixData s suff ⊆ s := by
  rw [stripSuffixData]
  split
  · exact List.take_subset _ _
  · exact List.Subset.refl _

theorem stripSuffixData_append (l suff : List Char) :
    stripSuffixData (l ++ suff) suff = l := by
  have hsuff : suff.isSuffixOf (l ++ suff) :=
    List.isSuffixOf_iff_suffix.mpr (List.suffix_append l suff)
  rw [stripSuffixData, if_pos hsuff, List.length_append, Nat.add_sub_cancel]
  exact List.take_left l suff

theorem ite_empty_self (p : String) : (if p = "" then "" else p) = p := by
  by_cases h : p = "" <;> simp [h]

theorem getPseudoBootId_cases (env : MachineIdEnv) :
    getPseudoBootId env = "" ∨
      ∃ bs ks, env.devBtime = some bs ∧ env.kernelInfo = some ks ∧
        getPseudoBootId env = uint64ToHexString (hasherDigest (bs ++ ks)) := by
  rw [getPseudoBootId]
  cases hb : env.devBtime with
  | none => exact Or.inl rfl
  | some bs =>
    cases hk : env.kernelInfo with
    | none => exact Or.inl rfl
    | some ks => exact Or.inr ⟨bs, ks, rfl, rfl, rfl⟩

theorem findAndRemove_eq_none_of (self : Nat) (l : List PendingConnection)
    (h : ∀ p ∈ l, p.connectingClientConn ≠ self) :
    findAndRemove self l = none := by
  induction l with
  | nil => rfl
  | cons p ps ih =>
    rw [findAndRemove, if_neg (h p (List.mem_cons_self p ps)),
      ih (fun q hq => h q (List.mem_cons_of_mem p hq))]

theorem forall_of_findAndRemove_eq_none (self : Nat) (l : List PendingConnection)
    (h : findAndRemove self l = none) :
    ∀ p ∈ l, p.connectingClientConn ≠ self := by
  induction l with
  | nil => intro p hp; simp at hp
  | cons p ps ih =>
    by_cases hp : p.connectingClientConn = self
    · rw [findAndRemove, if_pos hp] at h
      simp at h
    · rw [findAndRemove, if_neg hp] at h
      cases hfr : findAndRemove self ps with
      | none =>
        intro q hq
        rcases List.mem_cons.mp hq with rfl | hmem
        · exact hp
        · exact ih hfr q hmem
      | some er =>
        obtain ⟨e, r⟩ := er
        rw [hfr] at h
        simp at h

theorem findAndRemove_append (self : Nat) (l : List PendingConnection)
    (p : PendingConnection) (hl : ∀ q ∈ l, q.connectingClientConn ≠ self)
    (hp : p.connectingClientConn = self) :
    findAndRemove self (l ++ [p]) = some (p, l) := by
  induction l with
  | nil => simp [findAndRemove, hp]
  | cons q qs ih =>
    rw [List.cons_append, findAndRemove,
      if_neg (hl q (List.mem_cons_self q qs)),
      ih (fun r hr => hl r (List.mem_cons_of_mem q hr))]

theorem findAndRemove_some_spec (self : Nat) (l : List PendingConnection) :
    ∀ (e : PendingConnection) (r : List PendingConnection),
      findAndRemove self l = some (e, r) →
      e.connectingClientConn = self ∧ r.length + 1 = l.length := by
  induction l with
  | nil => intro e r h; simp [findAndRemove] at h
  | cons p ps ih =>
    intro e r h
    by_cases hp : p.connectingClientConn = self
    · rw [findAndRemove, if_pos hp] at h
      injection h with h'
      rw [Prod.mk.injEq] at h'
      obtain ⟨rfl, rfl⟩ := h'
      exact ⟨hp, rfl⟩
    · rw [findAndRemove, if_neg hp] at h
      cases hfr : findAndRemove self ps with
      | none => rw [hfr] at h; simp at h
      | some er =>
        obtain ⟨q, qs⟩ := er
        rw [hfr] at h
        injection h with h'
        rw [Prod.mk.injEq] at h'
        obtain ⟨rfl, rfl⟩ := h'
        obtain ⟨h1, h2⟩ := ih q qs hfr
        refine ⟨h1, ?_⟩
        simp only [List.length_cons]
        omega

example :
    onConnect ⟨"h", [⟨⟨⟨some 5, [9]⟩, ⟨none, []⟩⟩, 3⟩], [], []⟩ 3 true =
      some ⟨"h", [], [⟨⟨some 5, [9]⟩, ⟨some 3, []⟩⟩], []⟩ := by decide
example :
    onConnect ⟨"h", [⟨⟨⟨some 5, [9]⟩, ⟨none, []⟩⟩, 3⟩], [], []⟩ 3 false =
      some ⟨"h", [], [], [⟨⟨some 5, [9]⟩, ⟨none, []⟩⟩]⟩ := by decide
example : onConnect ⟨"h", [], [], []⟩ 3 false = none := by decide
example :
    onNewIncomingConnection ⟨32, fun f => [f.requestId % 256], true⟩
      ⟨"h", [], [], []⟩ 5 7 42 9 =
      some ⟨"h", [⟨⟨⟨some 5, [0]⟩, ⟨none, []⟩⟩, 9⟩], [], []⟩ := by decide

/-! ## Claims about the machine identifier hint -/

/-- C5 (counterexample): with the boot-id file unreadable the fallback path
runs, and one of its two inputs (the birth timestamp of the well-known
directory) is obtainable, yet `GetMachineIdHint` returns the empty string —
the source's `get_pseudo_boot_id` bails out to the empty string as soon as
either input is missing, so one obtainable input does not suffice. -/
theorem c5_counterexample :
    getMachineIdHint true ⟨none, some [1], none⟩ false = "" ∧
    (⟨none, some [1], none⟩ : MachineIdEnv).bootIdFile = none ∧
    (⟨none, some [1], none⟩ : MachineIdEnv).devBtime ≠ none := by
  refine ⟨rfl, rfl, ?_⟩
  decide

/-- C5 (amended): if the fallback path runs (test mode, or the boot-id file
is unreadable) and both of its inputs — the birth timestamp and the kernel
identification record — are obtainable, `GetMachineIdHint` returns the
non-empty hex-encoded digest of the two, not the empty string. -/
theorem c5_amended_fallback_both_inputs (env : MachineIdEnv) (t : Bool)
    (hrun : t = true ∨ env.bootIdFile = none)
    (bs ks : List Nat) (hb : env.devBtime = some bs)
    (hk : env.kernelInfo = some ks) :
    getMachineIdHint true env t = uint64ToHexString (hasherDigest (bs ++ ks)) ∧
    getMachineIdHint true env t ≠ "" := by
  have hres : getMachineIdHint true env t = getPseudoBootId env := by
    rcases hrun with rfl | hnone
    · simp [getMachineIdHint, getMachineIdHintTraced, fallbackStep, ite_empty_self]
    · cases t
      · simp [getMachineIdHint, getMachineIdHintTraced, hnone, fallbackStep,
          ite_empty_self]
      · simp [getMachineIdHint, getMachineIdHintTraced, fallbackStep,
          ite_empty_self]
  rw [hres, getPseudoBootId, hb, hk]
  exact ⟨rfl, uint64ToHexString_ne_empty _⟩

/-- C5 (witness): a concrete environment on which the amended claim's
hypotheses hold and the digest is returned. -/
theorem c5_amended_witness :
    getMachineIdHint true ⟨none, some [1], some [2]⟩ false =
      uint64ToHexString (hasherDigest ([1] ++ [2])) ∧
    getMachineIdHint true ⟨none, some [1], some [2]⟩ false ≠ "" :=
  c5_amended_fallback_both_inputs ⟨none, some [1], some [2]⟩ false
    (Or.inr rfl) [1] [2] rfl rfl

/-- C6: with the test-mode flag false and a readable boot-id file,
`GetMachineIdHint` returns the file content with a single trailing newline
stripped and never attempts the fallback; with the test-mode flag true the
boot-id file is never consulted (the `&&` short-circuits past `ReadFile`)
and, on platforms with the fallback, the fallback path is taken and
produces the result. -/
theorem c6_bootid_verbatim_and_testmode (sf : Bool) (env : MachineIdEnv) :
    (∀ c, env.bootIdFile = some c →
      getMachineIdHintTraced sf env false = ⟨stripSuffix c "\n", true, false⟩) ∧
    (getMachineIdHintTraced sf env true).bootIdFileRead = false ∧
    (getMachineIdHintTraced true env true).fallbackAttempted = true ∧
    (getMachineIdHintTraced true env true).result = getPseudoBootId env := by
  refine ⟨?_, ?_, ?_, ?_⟩
  · intro c hc
    simp [getMachineIdHintTraced, hc]
  · cases sf <;> simp [getMachineIdHintTraced, fallbackStep]
  · simp [getMachineIdHintTraced, fallbackStep]
  · simp [getMachineIdHintTraced, fallbackStep, ite_empty_self]

/-- C6 (witness): concrete runs of both modes. -/
theorem c6_witness :
    getMachineIdHintTraced true ⟨some "abc\n", none, none⟩ false =
      ⟨stripSuffix "abc\n" "\n", true, false⟩ ∧
    (getMachineIdHintTraced true ⟨some "abc\n", none, none⟩ true).bootIdFileRead =
      false :=
  ⟨(c6_bootid_verbatim_and_testmode true ⟨some "abc\n", none, none⟩).1 "abc\n" rfl,
   (c6_bootid_verbatim_and_testmode true ⟨some "abc\n", none, none⟩).2.1⟩

/-- C7 (counterexample): the claim quantifies over every input environment,
but `StripSuffix` removes only one trailing newline, so a boot-id file
whose content has an interior newline yields a result that still contains a
newline character. -/
theorem c7_counterexample :
    '\n' ∈ (getMachineIdHint true ⟨some "a\nb\n", none, none⟩ false).data := by
  decide

/-- C7 (amended): the result is always the empty string, a hex digest, or
the boot-id content with one trailing newline stripped; and provided the
boot-id file content contains no newline other than at most one trailing
newline, the result never contains a newline character. -/
theorem c7_amended_result_shape (sf : Bool) (env : MachineIdEnv) (t : Bool)
    (hwf : ∀ c, env.bootIdFile = some c →
      ('\n' ∉ c.data ∨ ∃ l, c.data = l ++ ['\n'] ∧ '\n' ∉ l)) :
    (getMachineIdHint sf env t = "" ∨
     (∃ n, getMachineIdHint sf env t = uint64ToHexString n) ∨
     (∃ c, env.bootIdFile = some c ∧
       getMachineIdHint sf env t = stripSuffix c "\n")) ∧
    '\n' ∉ (getMachineIdHint sf env t).data := by
  have hfb : ∀ rf : Bool,
      ((fallbackStep sf env rf).result = "" ∨
        ∃ n, (fallbackStep sf env rf).result = uint64ToHexString n) ∧
      '\n' ∉ (fallbackStep sf env rf).result.data := by
    intro rf
    cases sf
    · simp [fallbackStep]
    · simp only [fallbackStep, ite_empty_self]
      rcases getPseudoBootId_cases env with h | ⟨bs, ks, _, _, h⟩
      · simp [h]
      · rw [h]
        exact ⟨Or.inr ⟨_, rfl⟩, newline_notMem_uint64ToHexString _⟩
  cases t
  · cases hboot : env.bootIdFile with
    | none =>
      have := hfb true
      simp only [getMachineIdHint, getMachineIdHintTraced, hboot]
      rcases this with ⟨h1, h2⟩
      exact ⟨h1.elim Or.inl (fun h => Or.inr (Or.inl h)), h2⟩
    | some c =>
      simp only [getMachineIdHint, getMachineIdHintTraced, hboot]
      constructor
      · exact Or.inr (Or.inr ⟨c, rfl, rfl⟩)
      · rcases hwf c hboot with hnone | ⟨l, hl, hlf⟩
        · intro hmem
          exact hnone (stripSuffixData_subset c.data ['\n'] hmem)
        · show '\n' ∉ stripSuffixData c.data ['\n']
          rw [hl, stripSuffixData_append]
          exact hlf
  · have := hfb false
    simp only [getMachineIdHint, getMachineIdHintTraced]
    rcases this with ⟨h1, h2⟩
    exact ⟨h1.elim Or.inl (fun h => Or.inr (Or.inl h)), h2⟩

/-- C7 (witness): a well-formed boot-id file (single trailing newline); the
result carries no newline. -/
theorem c7_amended_witness :
    ((getMachineIdHint true ⟨some "abc\n", none, none⟩ false = "" ∨
      (∃ n, getMachineIdHint true ⟨some "abc\n", none, none⟩ false =
        uint64ToHexString n) ∨
      (∃ c, (⟨some "abc\n", none, none⟩ : MachineIdEnv).bootIdFile = some c ∧
        getMachineIdHint true ⟨some "abc\n", none, none⟩ false =
          stripSuffix c "\n")) ∧
     '\n' ∉ (getMachineIdHint true ⟨some "abc\n", none, none⟩ false).data) :=
  c7_amended_result_shape true ⟨some "abc\n", none, none⟩ false
    (fun c hc => by
      injection hc with h
      subst h
      exact Or.inr ⟨['a', 'b', 'c'], by decide, by decide⟩)

/-- C10: a readable boot-id file whose content is empty (or reduces to
empty after stripping one trailing newline) makes `GetMachineIdHint` return
the empty string with the fallback never attempted, whatever the fallback's
inputs would have yielded. -/
theorem c10_empty_bootid_short_circuit (sf : Bool) (env : MachineIdEnv)
    (c : String) (hc : env.bootIdFile = some c)
    (he : stripSuffix c "\n" = "") :
    getMachineIdHintTraced sf env false = ⟨"", true, false⟩ := by
  simp [getMachineIdHintTraced, hc, he]

/-- C10 (witness): boot-id file content is a lone newline while both
fallback inputs are available; the result is empty and the fallback is not
attempted. -/
theorem c10_witness :
    getMachineIdHintTraced true ⟨some "\n", some [1], some [2]⟩ false =
      ⟨"", true, false⟩ :=
  c10_empty_bootid_short_circuit true ⟨some "\n", some [1], some [2]⟩ "\n" rfl
    (by decide)

/-! ## Claims about the connection pairing engine -/

/-- C1: for an inbound connection whose outbound attempt resolves
successfully, the handler hands the forwarding collaborator a socket pair
whose inbound (server) side's pending output is exactly the serialized
forged identity frame, byte for byte, with nothing before it, and whose
outbound (client) side's buffer is empty. -/
theorem c1_success_handoff_exact_frame (cfg : RelayConfig) (st : RelayState)
    (srv : Nat) (pid : Int) (uid : Nat) (cid : Nat)
    (hfresh : ∀ q ∈ st.pendingConnections, q.connectingClientConn ≠ cid)
    (hcap : (cfg.serialize (mkSetPeerIdentityFrame cfg.platformHasPeerPid pid
        uid st.machineIdHint)).length ≤ cfg.capacity) :
    ∃ st₁ st₂,
      onNewIncomingConnection cfg st srv pid uid cid = some st₁ ∧
      onConnect st₁ cid true = some st₂ ∧
      st₂.handedOffPairs = st.handedOffPairs ++
        [⟨⟨some srv,
            cfg.serialize (mkSetPeerIdentityFrame cfg.platformHasPeerPid pid
              uid st.machineIdHint)⟩,
          ⟨some cid, []⟩⟩] := by
  refine ⟨{ st with pendingConnections := st.pendingConnections ++
      [⟨⟨⟨some srv,
          cfg.serialize (mkSetPeerIdentityFrame cfg.platformHasPeerPid pid
            uid st.machineIdHint)⟩,
        ⟨none, []⟩⟩, cid⟩] },
    { st with handedOffPairs := st.handedOffPairs ++
        [⟨⟨some srv,
            cfg.serialize (mkSetPeerIdentityFrame cfg.platformHasPeerPid pid
              uid st.machineIdHint)⟩,
          ⟨some cid, []⟩⟩] }, ?_, ?_, rfl⟩
  · simp only [onNewIncomingConnection]
    split
    · rfl
    · rename_i hcond
      exact absurd (by simpa [SocketWithBuffer.availableBytes] using hcap) hcond
  · rw [onConnect, findAndRemove_append cid st.pendingConnections _ hfresh rfl]
    rfl

/-- C1 (witness): a concrete accepted connection whose outbound attempt
succeeds; the handed-off pair holds exactly the serialized forged frame on
the server side and nothing on the client side. -/
theorem c1_witness :
    ∃ st₁ st₂,
      onNewIncomingConnection ⟨32, fun f => [f.requestId % 256], true⟩
        ⟨"h", [], [], []⟩ 5 7 42 9 = some st₁ ∧
      onConnect st₁ 9 true = some st₂ ∧
      st₂.handedOffPairs =
        (⟨"h", [], [], []⟩ : RelayState).handedOffPairs ++
          [⟨⟨some 5,
              (⟨32, fun f => [f.requestId % 256], true⟩ : RelayConfig).serialize
                (mkSetPeerIdentityFrame
                  (⟨32, fun f => [f.requestId % 256], true⟩ :
                    RelayConfig).platformHasPeerPid
                  7 42 (⟨"h", [], [], []⟩ : RelayState).machineIdHint)⟩,
            ⟨some 9, []⟩⟩] :=
  c1_success_handoff_exact_frame ⟨32, fun f => [f.requestId % 256], true⟩
    ⟨"h", [], [], []⟩ 5 7 42 9 (by decide) (by decide)

/-- C2 (counterexample): the forged frame does not always carry the inbound
peer's numeric user id verbatim — `peer_uid_posix()` is a 32-bit unsigned
value and the source stores `static_cast<int32_t>` of it, so the user id
4294967294 is staged as -2. -/
theorem c2_counterexample_uid_wraps :
    (mkSetPeerIdentityFrame true 7 4294967294 "hint").setPeerIdentity.uid ≠
      (4294967294 : Int) := by
  decide

/-- C2 (amended): the frame staged by the inbound-acceptance handler has
request id 0 and carries the cached machine identifier hint, the inbound
peer's process id exactly when the platform exposes it, and the peer's
numeric user id converted to a signed 32-bit value — equal to the user id
itself whenever that id is below 2^31. -/
theorem c2_amended_forged_frame_fields (cfg : RelayConfig) (st : RelayState)
    (srv : Nat) (pid : Int) (uid : Nat) (cid : Nat) (st' : RelayState)
    (h : onNewIncomingConnection cfg st srv pid uid cid = some st') :
    ∃ f : IPCFrame,
      st'.pendingConnections = st.pendingConnections ++
        [⟨⟨⟨some srv, cfg.serialize f⟩, ⟨none, []⟩⟩, cid⟩] ∧
      f.requestId = 0 ∧
      f.setPeerIdentity.machineIdHint = st.machineIdHint ∧
      f.setPeerIdentity.pid =
        (if cfg.platformHasPeerPid then some pid else none) ∧
      f.setPeerIdentity.uid = int32OfUint32 uid ∧
      (uid < 2147483648 → f.setPeerIdentity.uid = (uid : Int)) := by
  refine ⟨mkSetPeerIdentityFrame cfg.platformHasPeerPid pid uid st.machineIdHint,
    ?_, rfl, rfl, rfl, rfl, ?_⟩
  · rw [onNewIncomingConnection] at h
    split at h
    · obtain rfl := Option.some.inj h
      rfl
    · exact absurd h (by simp)
  · intro hu
    have hmod : uid % 4294967296 = uid :=
      Nat.mod_eq_of_lt (lt_trans hu (by norm_num))
    simp only [mkSetPeerIdentityFrame, int32OfUint32, hmod]
    rw [if_pos hu]

/-- C2 (witness): a concrete inbound acceptance; the staged frame has
request id 0, the peer's credentials, and the cached hint. -/
theorem c2_amended_witness :
    ∃ f : IPCFrame,
      (⟨"h", [⟨⟨⟨some 5, [0]⟩, ⟨none, []⟩⟩, 9⟩], [], []⟩ :
          RelayState).pendingConnections =
        (⟨"h", [], [], []⟩ : RelayState).pendingConnections ++
          [⟨⟨⟨some 5,
              (⟨32, fun f => [f.requestId % 256], true⟩ :
                RelayConfig).serialize f⟩,
            ⟨none, []⟩⟩, 9⟩] ∧
      f.requestId = 0 ∧
      f.setPeerIdentity.machineIdHint =
        (⟨"h", [], [], []⟩ : RelayState).machineIdHint ∧
      f.setPeerIdentity.pid =
        (if (⟨32, fun f => [f.requestId % 256], true⟩ :
            RelayConfig).platformHasPeerPid then some 7 else none) ∧
      f.setPeerIdentity.uid = int32OfUint32 42 ∧
      (42 < 2147483648 → f.setPeerIdentity.uid = (42 : Int)) :=
  c2_amended_forged_frame_fields ⟨32, fun f => [f.requestId % 256], true⟩
    ⟨"h", [], [], []⟩ 5 7 42 9 ⟨"h", [⟨⟨⟨some 5, [0]⟩, ⟨none, []⟩⟩, 9⟩], [], []⟩
    (by decide)

/-- C3: an outbound-resolution event whose connection matches no pending
entry is a fatal invariant violation, and whenever the handler completes it
has removed exactly one pending entry — the first whose connecting outbound
connection is the resolved one — regardless of whether the attempt
succeeded or failed. -/
theorem c3_lookup_and_single_removal (st : RelayState) (self : Nat)
    (connected : Bool) :
    ((∀ p ∈ st.pendingConnections, p.connectingClientConn ≠ self) →
      onConnect st self connected = none) ∧
    (∀ st', onConnect st self connected = some st' →
      ∃ e r, findAndRemove self st.pendingConnections = some (e, r) ∧
        e.connectingClientConn = self ∧
        st'.pendingConnections = r ∧
        r.length + 1 = st.pendingConnections.length) := by
  constructor
  · intro h
    rw [onConnect, findAndRemove_eq_none_of self _ h]
  · intro st' h
    rw [onConnect] at h
    cases hfr : findAndRemove self st.pendingConnections with
    | none => rw [hfr] at h; simp at h
    | some er =>
      obtain ⟨e, r⟩ := er
      rw [hfr] at h
      obtain ⟨h1, h2⟩ := findAndRemove_some_spec self st.pendingConnections e r hfr
      refine ⟨e, r, rfl, h1, ?_, h2⟩
      cases connected
      · have h' : some ({ st with
            pendingConnections := r
            closedPairs := st.closedPairs ++ [e.socketPair] } :
            RelayState) = some st' := h
        obtain rfl := Option.some.inj h'
        rfl
      · have h' : some ({ st with
            pendingConnections := r
            handedOffPairs := st.handedOffPairs ++
              [{ e.socketPair with
                  client := { e.socketPair.client with sock := some self } }] } :
            RelayState) = some st' := h
        obtain rfl := Option.some.inj h'
        rfl

/-- C3 (witness): with no matching entry the handler is fatal; with one
matching entry exactly that entry is removed. -/
theorem c3_witness :
    onConnect ⟨"h", [], [], []⟩ 3 false = none ∧
    ∃ e r,
      findAndRemove 3
        (⟨"h", [⟨⟨⟨some 5, [9]⟩, ⟨none, []⟩⟩, 3⟩], [], []⟩ :
          RelayState).pendingConnections = some (e, r) ∧
      e.connectingClientConn = 3 ∧
      (⟨"h", [], [⟨⟨some 5, [9]⟩, ⟨some 3, []⟩⟩], []⟩ :
        RelayState).pendingConnections = r ∧
      r.length + 1 =
        (⟨"h", [⟨⟨⟨some 5, [9]⟩, ⟨none, []⟩⟩, 3⟩], [], []⟩ :
          RelayState).pendingConnections.length :=
  ⟨(c3_lookup_and_single_removal ⟨"h", [], [], []⟩ 3 false).1 (by decide),
   (c3_lookup_and_single_removal
      ⟨"h", [⟨⟨⟨some 5, [9]⟩, ⟨none, []⟩⟩, 3⟩], [], []⟩ 3 true).2
     ⟨"h", [], [⟨⟨some 5, [9]⟩, ⟨some 3, []⟩⟩], []⟩ (by decide)⟩

/-- C4: when the outbound attempt fails, the handler removes the pending
entry and destroys it — both staged sockets end up closed with their
pre-staged frame bytes discarded — and the forwarding collaborator's list
of received pairs is left untouched. -/
theorem c4_failure_discards_pair (st : RelayState) (self : Nat)
    (entry : PendingConnection) (rest : List PendingConnection)
    (h : findAndRemove self st.pendingConnections = some (entry, rest)) :
    onConnect st self false =
      some { st with
        pendingConnections := rest
        closedPairs := st.closedPairs ++ [entry.socketPair] } := by
  rw [onConnect, h]
  rfl

/-- C4 (witness): a concrete failed outbound attempt; the pair is closed,
nothing is handed off. -/
theorem c4_witness :
    onConnect ⟨"h", [⟨⟨⟨some 5, [9]⟩, ⟨none, []⟩⟩, 3⟩], [], []⟩ 3 false =
      some ⟨"h", [], [],
        ([] : List SocketPair) ++
          [(⟨⟨⟨some 5, [9]⟩, ⟨none, []⟩⟩, 3⟩ :
            PendingConnection).socketPair]⟩ :=
  c4_failure_discards_pair ⟨"h", [⟨⟨⟨some 5, [9]⟩, ⟨none, []⟩⟩, 3⟩], [], []⟩ 3
    ⟨⟨⟨some 5, [9]⟩, ⟨none, []⟩⟩, 3⟩ [] (by decide)

/-- C8: writing the serialized forged frame into the fresh staged buffer is
guarded by the fatal capacity check — whenever the frame fits the remaining
capacity the handler completes, and when it does not the handler is fatal,
with no recoverable path for capacity exhaustion. -/
theorem c8_capacity_check_guards_write (cfg : RelayConfig) (st : RelayState)
    (srv : Nat) (pid : Int) (uid : Nat) (cid : Nat) :
    ((cfg.serialize (mkSetPeerIdentityFrame cfg.platformHasPeerPid pid uid
          st.machineIdHint)).length ≤
        SocketWithBuffer.availableBytes cfg.capacity ⟨none, []⟩ →
      onNewIncomingConnection cfg st srv pid uid cid ≠ none) ∧
    (SocketWithBuffer.availableBytes cfg.capacity ⟨none, []⟩ <
        (cfg.serialize (mkSetPeerIdentityFrame cfg.platformHasPeerPid pid uid
          st.machineIdHint)).length →
      onNewIncomingConnection cfg st srv pid uid cid = none) := by
  constructor
  · intro h
    simp only [onNewIncomingConnection]
    split
    · simp
    · rename_i hcond
      exact absurd h hcond
  · intro h
    simp only [onNewIncomingConnection]
    split
    · rename_i hcond
      omega
    · rfl

/-- C8 (witness): with capacity 32 the one-byte frame fits and staging
succeeds; with capacity 0 the check is fatal. -/
theorem c8_witness :
    onNewIncomingConnection ⟨32, fun _ => [1], true⟩ ⟨"h", [], [], []⟩
      5 7 42 9 ≠ none ∧
    onNewIncomingConnection ⟨0, fun _ => [1], true⟩ ⟨"h", [], [], []⟩
      5 7 42 9 = none :=
  ⟨(c8_capacity_check_guards_write ⟨32, fun _ => [1], true⟩ ⟨"h", [], [], []⟩
      5 7 42 9).1 (by decide),
   (c8_capacity_check_guards_write ⟨0, fun _ => [1], true⟩ ⟨"h", [], [], []⟩
      5 7 42 9).2 (by decide)⟩

/-- C9: a disconnect or data-available notification on a socket the engine
still tracks is treated as a fatal invariant violation, with no recovery
path, in every state. -/
theorem c9_unreachable_callbacks_fatal (st : RelayState) (sock : Nat) :
    onDisconnect st sock = none ∧ onDataAvailable st sock = none :=
  ⟨rfl, rfl⟩

end RelayVerification
